import Mathlib

/-!
Verification of the arXiv topic-alert ingestion pipeline
(`arxiv_topic_alert.py` and its near-duplicate `arxiv_federated_alert.py`).

The Python records are dictionaries with string fields; they are embedded as a
structure.  Timestamp parsing (`rfc3339_to_naive_utc`, a wrapper around the
standard library's ISO-8601 parsing) is embedded as an explicit parameter
`parse : String → Option Int` mapping a raw timestamp string to an instant
(naive-UTC instants are modelled as integers); `none` models an unparseable or
empty timestamp.
-/

/-- One candidate item decoded from the remote Atom feed, as produced by
`parse_entries`: the `id`, `title`, `summary`, `updated`, `published`,
`authors` and `link` fields of the Python dictionary. -/
structure Record where
  id : String
  title : String
  summary : String
  updated : String
  published : String
  authors : String
  link : String
deriving DecidableEq

/-- `dedupe(entries, seen)` from `arxiv_topic_alert.py` (line 163):
`[e for e in entries if e["id"] not in seen]`.  The prior seen-set is a
Python `set`, embedded as a `Finset String`; the function reads it and never
writes to it. -/
def dedupe (entries : List Record) (seen : Finset String) : List Record :=
  entries.filter (fun e => decide (e.id ∉ seen))

/-- `max([x for x in [rfc3339_to_naive_utc(e["published"]),
rfc3339_to_naive_utc(e["updated"])] if x], default=None)` from
`filter_by_time` (line 148): the maximum of whichever timestamps parse,
`none` when neither does.  (A parsed `datetime` is never falsy, so the
Python `if x` guard only drops `None`.) -/
def effectiveTimestamp (parse : String → Option Int) (e : Record) : Option Int :=
  match parse e.published, parse e.updated with
  | some p, some u => some (max p u)
  | some p, none => some p
  | none, some u => some u
  | none, none => none

/-- `filter_by_time(entries, cutoff)` from `arxiv_topic_alert.py`
(lines 145-150): keep `e` when its effective timestamp exists and
`t >= cutoff` (a `datetime` is never falsy, so `if t and t >= cutoff`
is exactly that test). -/
def filter_by_time (parse : String → Option Int) (entries : List Record)
    (cutoff : Int) : List Record :=
  entries.filter (fun e =>
    match effectiveTimestamp parse e with
    | some t => decide (cutoff ≤ t)
    | none => false)

/-- Python `str.lower`, character by character. -/
def strLower (s : String) : String :=
  String.mk (s.data.map Char.toLower)

/-- Python's substring test `tok in hay`. -/
def strContains (hay tok : String) : Bool :=
  decide (tok.data <:+: hay.data)

/-- The per-entry keep test of `filter_by_keywords` (lines 156-160):
`hay = (e["title"]+" "+e["summary"]).lower()`, then
`if R and not all(tok in hay for tok in R): continue` and
`if A and not any(tok in hay for tok in A): continue`.
`R` and `A` are the already-lowercased token lists. -/
def keywordKeep (R A : List String) (e : Record) : Bool :=
  let hay := strLower (e.title ++ (" ") ++ e.summary)
  (R.isEmpty || R.all (fun tok => strContains hay tok)) &&
  (A.isEmpty || A.any (fun tok => strContains hay tok))

/-- The loop of `filter_by_keywords` once `R` and `A` have been computed from
non-`None` argument lists (lines 153-161). -/
def filter_by_keywordsL (entries : List Record)
    (required_all any_keywords : List String) : List Record :=
  entries.filter (keywordKeep (required_all.map strLower) (any_keywords.map strLower))

/-- Iterating a Python value that may be `None`: a list iterates to itself,
`None` raises `TypeError`. -/
def pyList {α : Type} : Option (List α) → Except String (List α)
  | none => Except.error ("TypeError")
  | some xs => Except.ok xs

/-- `filter_by_keywords(entries, required_all=None, any_keywords=None)` from
`arxiv_topic_alert.py` (lines 152-161), with Python's `None` embedded as
`none`.  The comprehensions `R = [s.lower() for s in required_all]` and
`A = [s.lower() for s in any_keywords]` run first and raise `TypeError` when
their argument is `None`; iterating `entries` raises afterwards; no token is
stripped or dropped before matching. -/
def filter_by_keywords (entries : Option (List Record))
    (required_all any_keywords : Option (List String)) :
    Except String (List Record) := do
  let ra ← pyList required_all
  let ak ← pyList any_keywords
  let es ← pyList entries
  pure (filter_by_keywordsL es ra ak)

section FilterLemmas

theorem mem_dedupe {l : List Record} {seen : Finset String} {e : Record} :
    e ∈ dedupe l seen ↔ e ∈ l ∧ e.id ∉ seen := by
  simp [dedupe, List.mem_filter]

theorem mem_filter_by_time {parse : String → Option Int} {entries : List Record}
    {cutoff : Int} {e : Record} :
    e ∈ filter_by_time parse entries cutoff ↔
      e ∈ entries ∧ ∃ t, effectiveTimestamp parse e = some t ∧ cutoff ≤ t := by
  unfold filter_by_time
  rw [List.mem_filter]
  cases h : effectiveTimestamp parse e <;> simp [h]

theorem mem_filter_by_keywordsL {entries : List Record}
    {R A : List String} {e : Record} :
    e ∈ filter_by_keywordsL entries R A ↔
      e ∈ entries ∧ keywordKeep (R.map strLower) (A.map strLower) e = true := by
  simp [filter_by_keywordsL, List.mem_filter]

end FilterLemmas

/-- C1: for every record list `R` and prior seen-identity set `S`, `dedupe`
returns exactly the records of `R` whose identity is not in `S` — it is a
sublist of `R` (so relative order is preserved), membership is exactly
`e ∈ R ∧ e.id ∉ S`, the multiplicity of every unseen record is preserved and
every seen record is dropped.  `dedupe` is a pure function of `(R, S)` and
returns a fresh list, so `S` is not mutated. -/
theorem dedupe_select_spec (R : List Record) (S : Finset String) :
    (dedupe R S).Sublist R
    ∧ (∀ e, e ∈ dedupe R S ↔ e ∈ R ∧ e.id ∉ S)
    ∧ (∀ e, e.id ∉ S → (dedupe R S).count e = R.count e)
    ∧ (∀ e, e.id ∈ S → (dedupe R S).count e = 0) := by
  refine ⟨List.filter_sublist _, fun e => mem_dedupe, fun e he => ?_, fun e he => ?_⟩
  · unfold dedupe
    rw [List.count_filter]
    simp [he]
  · rw [List.count_eq_zero]
    intro hmem
    exact (mem_dedupe.mp hmem).2 he

/-- A concrete record used to instantiate the theorems. -/
def sampleA : Record :=
  ⟨"idA", "Federated learning", "studies time series", "u1", "p1", "Ann", ""⟩

/-- A second concrete record. -/
def sampleB : Record :=
  ⟨"idB", "Biology", "cells", "u2", "p2", "Bob", "lnk"⟩

theorem dedupe_select_spec_witness :
    sampleA ∈ dedupe [sampleA, sampleB] ({"idB"} : Finset String) :=
  ((dedupe_select_spec [sampleA, sampleB] ({"idB"} : Finset String)).2.1 sampleA).mpr
    ⟨by simp, by decide⟩

/-- C4: `filter_by_time` keeps a record iff the maximum of its parseable
timestamps exists and is `≥ cutoff` (inclusive boundary); a record with
neither timestamp parseable has no effective timestamp and is excluded; when
both parse the effective timestamp is their maximum. -/
theorem filter_by_time_spec (parse : String → Option Int) (entries : List Record)
    (cutoff : Int) :
    (∀ e, e ∈ filter_by_time parse entries cutoff ↔
        e ∈ entries ∧ ∃ t, effectiveTimestamp parse e = some t ∧ cutoff ≤ t)
    ∧ (∀ e, parse e.published = none → parse e.updated = none →
        e ∉ filter_by_time parse entries cutoff)
    ∧ (∀ e p u, parse e.published = some p → parse e.updated = some u →
        effectiveTimestamp parse e = some (max p u)) := by
  refine ⟨fun e => mem_filter_by_time, fun e hp hu hmem => ?_, fun e p u hp hu => ?_⟩
  · obtain ⟨-, t, ht, -⟩ := mem_filter_by_time.mp hmem
    rw [effectiveTimestamp, hp, hu] at ht
    exact Option.noConfusion ht
  · rw [effectiveTimestamp, hp, hu]

/-- A concrete timestamp parse map: `"p1" ↦ 10`, `"u1" ↦ 20`, all else
unparseable. -/
def parseSmall (s : String) : Option Int :=
  if s = "p1" then some 10 else if s = "u1" then some 20 else none

theorem filter_by_time_spec_witness :
    sampleA ∈ filter_by_time parseSmall [sampleA, sampleB] 15 :=
  ((filter_by_time_spec parseSmall [sampleA, sampleB] 15).1 sampleA).mpr
    ⟨by simp, 20, by decide, by decide⟩

/-- A record matching the repository test `test_accepts_none_keyword_lists`. -/
def quantumRec : Record :=
  ⟨"", "Quantum Networks", "A study", "", "", "", ""⟩

/-- A record matching the first entry of `test_ignores_blank_keywords`. -/
def aiRec : Record :=
  ⟨"", "AI Research", "Learning representations", "", "", "", ""⟩

/-- A record matching the second entry of `test_ignores_blank_keywords`. -/
def bioRec : Record :=
  ⟨"", "Biology", "Cell study", "", "", "", ""⟩

/-- C5 (code bug): `filter_by_keywords` does not treat `None` keyword lists as
empty lists — the comprehension `[s.lower() for s in required_all]` iterates
`None` and raises `TypeError` — and it does not ignore blank tokens: with
`required_all = ["AI", "  "]` the whitespace-only token `"  "` is matched as a
substring, so the entry `{"title": "AI Research", "summary": "Learning
representations"}` that the repository test `test_ignores_blank_keywords`
expects to survive is filtered out.  Both runs contradict
`FilterByKeywordsTests` in `test_arxiv_topic_alert.py`. -/
theorem filter_by_keywords_code_bug :
    filter_by_keywords (some [quantumRec]) none none = Except.error ("TypeError")
    ∧ filter_by_keywords (some [aiRec, bioRec])
        (some ["AI", "  "]) (some ["learning"]) = Except.ok [] := by
  exact ⟨rfl, rfl⟩

/-!
State store.  `load_state`/`save_state` (lines 137-143) wrap `json.load` /
`json.dump` on a file path.  A JSON value is embedded as `Json`; a state file
holds a JSON object, embedded as an association list `StateDict` (Python
dicts preserve insertion order); the filesystem is a map from paths to the
decoded content of the file, with `none` standing for a missing, unreadable
or undecodable file (every such error makes `load_state` return `{}`).
`json.dump`/`json.load` round-trip the stored object exactly for these
values, so the file content is modelled at the decoded level.
-/

/-- A JSON value as stored in the state file (only strings and arrays occur
in the persisted run state). -/
inductive Json where
  | str : String → Json
  | arr : List Json → Json

/-- A decoded JSON object: Python `dict` with string keys. -/
abbrev StateDict := List (String × Json)

/-- The filesystem: path to decoded state-file content; `none` models a
missing or corrupt file. -/
abbrev FS := String → Option StateDict

/-- `load_state(path)` (lines 137-140): `json.load` of the file, `{}` on any
error. -/
def load_state (fs : FS) (path : String) : StateDict :=
  (fs path).getD []

/-- `save_state(path, obj)` (lines 142-143): fully overwrite the file at
`path` with the dumped object. -/
def save_state (fs : FS) (path : String) (st : StateDict) : FS :=
  fun p => if p = path then some st else fs p

/-- Python `dict` lookup: first (and only) binding of the key. -/
def dictGet (st : StateDict) (k : String) : Option Json :=
  match st with
  | [] => none
  | (k', v) :: rest => if k' = k then some v else dictGet rest k

/-- Python `dict` assignment `st[k] = v`: replace in place, else append. -/
def dictSet (st : StateDict) (k : String) (v : Json) : StateDict :=
  match st with
  | [] => [(k, v)]
  | (k', v') :: rest => if k' = k then (k, v) :: rest else (k', v') :: dictSet rest k v

/-- The string elements of a JSON array (the persisted `seen_ids` list holds
only strings); anything else contributes nothing. -/
def strListOfJson : Option Json → List String
  | some (Json.arr xs) => xs.filterMap (fun j => match j with
      | Json.str s => some s
      | Json.arr _ => none)
  | _ => []

/-- `seen = set(state.get("seen_ids", []))` (line 258). -/
def getSeenIds (st : StateDict) : Finset String :=
  (strListOfJson (dictGet st ("seen_ids"))).toFinset

/-- `sorted(seen)` dumped as a JSON array (line 333). -/
def encodeSeen (s : Finset String) : Json :=
  Json.arr ((s.sort (· ≤ ·)).map Json.str)

/-- `cutoff = datetime.fromisoformat(last) if last else fallback`
(lines 259-260): `last = state.get("last_run_iso")`; a missing key or empty
string is falsy.  `iso` embeds `datetime.fromisoformat` on the timestamps the
program persists, `fallback` embeds `now - timedelta(days=ARXIV_DAYS_BACK)`. -/
def cutoffOfState (iso : String → Int) (fallback : Int) (st : StateDict) : Int :=
  match dictGet st ("last_run_iso") with
  | some (Json.str s) => if s = "" then fallback else iso s
  | _ => fallback

section StateLemmas

theorem dictGet_dictSet_self (st : StateDict) (k : String) (v : Json) :
    dictGet (dictSet st k v) k = some v := by
  induction st with
  | nil => simp [dictGet, dictSet]
  | cons hd tl ih =>
    obtain ⟨k', v'⟩ := hd
    by_cases h : k' = k <;> simp [dictGet, dictSet, h, ih]

theorem dictGet_dictSet_ne (st : StateDict) (k k' : String) (v : Json)
    (h : k ≠ k') : dictGet (dictSet st k v) k' = dictGet st k' := by
  induction st with
  | nil => simp [dictGet, dictSet, h]
  | cons hd tl ih =>
    obtain ⟨k₀, v₀⟩ := hd
    by_cases h₀ : k₀ = k
    · subst h₀
      simp [dictGet, dictSet, h]
    · simp [dictGet, dictSet, h₀, ih]

theorem load_save (fs : FS) (path : String) (st : StateDict) :
    load_state (save_state fs path st) path = st := by
  simp [load_state, save_state]

theorem filterMap_str_map (l : List String) :
    List.filterMap (fun j => match j with
      | Json.str s => some s
      | Json.arr _ => none) (l.map Json.str) = l := by
  induction l with
  | nil => rfl
  | cons a t ih => simp only [List.map_cons, List.filterMap_cons, ih]

theorem strListOfJson_encodeSeen (s : Finset String) :
    strListOfJson (some (encodeSeen s)) = s.sort (· ≤ ·) :=
  filterMap_str_map _

/-- The state object the end of `main` persists (lines 332-335), given the
loaded state `st`, the final seen-set and the completion timestamp. -/
def finalState (st : StateDict) (seen : Finset String) (nowIso : String) : StateDict :=
  dictSet (dictSet st ("seen_ids") (encodeSeen seen)) ("last_run_iso") (Json.str nowIso)

theorem getSeenIds_finalState (st : StateDict) (seen : Finset String)
    (nowIso : String) : getSeenIds (finalState st seen nowIso) = seen := by
  unfold getSeenIds finalState
  rw [dictGet_dictSet_ne _ _ _ _ (by decide), dictGet_dictSet_self,
    strListOfJson_encodeSeen, Finset.sort_toFinset]

end StateLemmas

/-- C8: saving a run state (a seen-identity set together with the
completion instant, persisted by `main` as `sorted(seen)` under `seen_ids`
and an ISO timestamp under `last_run_iso`) and then loading from the same
location returns exactly the saved seen-set and the saved instant. -/
theorem state_roundtrip (fs : FS) (path : String) (st : StateDict)
    (seen : Finset String) (nowIso : String) :
    getSeenIds (load_state (save_state fs path (finalState st seen nowIso)) path) = seen
    ∧ dictGet (load_state (save_state fs path (finalState st seen nowIso)) path)
        ("last_run_iso") = some (Json.str nowIso) := by
  rw [load_save]
  exact ⟨getSeenIds_finalState st seen nowIso,
    dictGet_dictSet_self _ _ _⟩

/-- The identities of a list of records, as a set. -/
def recordIds (entries : List Record) : Finset String :=
  (entries.map (fun e => e.id)).toFinset

/-- The filteromitted stages of `main` (lines 270-280 and 332): time filter,
keyword filter, dedupe, then `seen.update(e["id"] for e in entries)`.
Returns the surviving entries and the updated seen-set. -/
def runPipeline (parse : String → Option Int) (raw : List Record) (cutoff : Int)
    (required_all any_keywords : List String) (seen : Finset String) :
    List Record × Finset String :=
  let after_time := filter_by_time parse raw cutoff
  let after_kw := filter_by_keywordsL after_time required_all any_keywords
  let entries := dedupe after_kw seen
  (entries, seen ∪ recordIds entries)

/-- One full run of `main` (lines 255-336) at the level the claims need:
load state, derive the cutoff, run the filter stages, merge the survivors
into the seen-set, persist the updated state.  `raw` is the decoded fetch
result (the remote source), `nowIso` the completion timestamp the run
persists.  Returns the filesystem after `save_state` and the surviving
entries (the notified records). -/
def mainStep (parse : String → Option Int) (iso : String → Int)
    (raw : List Record) (required_all any_keywords : List String)
    (fallback : Int) (nowIso : String) (fs : FS) (path : String) :
    FS × List Record :=
  let st := load_state fs path
  let seen := getSeenIds st
  let cutoff := cutoffOfState iso fallback st
  let pr := runPipeline parse raw cutoff required_all any_keywords seen
  (save_state fs path (finalState st pr.2 nowIso), pr.1)

section PipelineLemmas

theorem runPipeline_fst (parse : String → Option Int) (raw : List Record)
    (cutoff : Int) (R A : List String) (seen : Finset String) :
    (runPipeline parse raw cutoff R A seen).1 =
      dedupe (filter_by_keywordsL (filter_by_time parse raw cutoff) R A) seen :=
  rfl

theorem runPipeline_snd (parse : String → Option Int) (raw : List Record)
    (cutoff : Int) (R A : List String) (seen : Finset String) :
    (runPipeline parse raw cutoff R A seen).2 =
      seen ∪ recordIds (runPipeline parse raw cutoff R A seen).1 :=
  rfl

theorem load_after_mainStep (parse : String → Option Int) (iso : String → Int)
    (raw : List Record) (R A : List String) (fallback : Int) (nowIso : String)
    (fs : FS) (path : String) :
    load_state (mainStep parse iso raw R A fallback nowIso fs path).1 path =
      finalState (load_state fs path)
        (runPipeline parse raw (cutoffOfState iso fallback (load_state fs path))
          R A (getSeenIds (load_state fs path))).2 nowIso :=
  load_save fs path _

theorem cutoffOfState_finalState (iso : String → Int) (fallback : Int)
    (st : StateDict) (s : Finset String) (nowIso : String) (h : nowIso ≠ "") :
    cutoffOfState iso fallback (finalState st s nowIso) = iso nowIso := by
  unfold cutoffOfState finalState
  rw [dictGet_dictSet_self]
  simp [h]

theorem id_mem_recordIds {e : Record} {l : List Record} (h : e ∈ l) :
    e.id ∈ recordIds l :=
  List.mem_toFinset.mpr (List.mem_map_of_mem _ h)

/-- A record surviving the time filter at a later cutoff also survives it at
an earlier one. -/
theorem filter_by_time_mono {parse : String → Option Int} {raw : List Record}
    {c1 c2 : Int} (h : c1 ≤ c2) {e : Record}
    (he : e ∈ filter_by_time parse raw c2) : e ∈ filter_by_time parse raw c1 := by
  obtain ⟨hraw, t, htt, hct⟩ := mem_filter_by_time.mp he
  exact mem_filter_by_time.mpr ⟨hraw, t, htt, le_trans h hct⟩

/-- Re-running the filter stages against the seen-set produced by a first
run, with the same raw records and a cutoff at least the first run's, yields
no surviving record. -/
theorem runPipeline_rerun (parse : String → Option Int) (raw : List Record)
    (R A : List String) (c1 c2 : Int) (seen : Finset String) (h : c1 ≤ c2) :
    (runPipeline parse raw c2 R A (runPipeline parse raw c1 R A seen).2).1 = [] := by
  rw [runPipeline_fst]
  unfold dedupe
  rw [List.filter_eq_nil_iff]
  intro e he
  obtain ⟨ht2, hk⟩ := mem_filter_by_keywordsL.mp he
  have ht1 := filter_by_time_mono h ht2
  have hk1 : e ∈ filter_by_keywordsL (filter_by_time parse raw c1) R A :=
    mem_filter_by_keywordsL.mpr ⟨ht1, hk⟩
  rw [runPipeline_snd]
  simp only [decide_eq_true_eq, Decidable.not_not]
  by_cases hs : e.id ∈ seen
  · exact Finset.mem_union_left _ hs
  · refine Finset.mem_union_right _ (id_mem_recordIds ?_)
    rw [runPipeline_fst]
    exact mem_dedupe.mpr ⟨hk1, hs⟩

end PipelineLemmas

/-- C3: the seen-set persisted at the end of a run is exactly the union of
the seen-set loaded at the start with the identities of the records that
survived all filtering stages in that run; in particular it is a superset of
the loaded set. -/
theorem seen_persist_spec (parse : String → Option Int) (iso : String → Int)
    (raw : List Record) (R A : List String) (fallback : Int) (nowIso : String)
    (fs : FS) (path : String) :
    getSeenIds (load_state (mainStep parse iso raw R A fallback nowIso fs path).1 path)
      = getSeenIds (load_state fs path)
        ∪ recordIds (mainStep parse iso raw R A fallback nowIso fs path).2
    ∧ getSeenIds (load_state fs path)
      ⊆ getSeenIds (load_state (mainStep parse iso raw R A fallback nowIso fs path).1 path) := by
  have h1 : getSeenIds (load_state (mainStep parse iso raw R A fallback nowIso fs path).1 path)
      = getSeenIds (load_state fs path)
        ∪ recordIds (mainStep parse iso raw R A fallback nowIso fs path).2 := by
    rw [load_after_mainStep, getSeenIds_finalState, runPipeline_snd]
    rfl
  exact ⟨h1, h1 ▸ Finset.subset_union_left⟩

/-- The always-empty filesystem: no state file exists yet. -/
def fs0 : FS := fun _ => none

/-- A parse map making every timestamp the instant `1`. -/
def parseOne : String → Option Int := fun _ => some 1

/-- An `isoformat` embedding sending every timestamp string to instant `0`. -/
def isoZero : String → Int := fun _ => 0

theorem seen_persist_spec_witness :
    getSeenIds (load_state (mainStep parseOne isoZero [sampleA] [] [] 0 ("n1") fs0 ("p")).1 ("p"))
      = getSeenIds (load_state fs0 ("p"))
        ∪ recordIds (mainStep parseOne isoZero [sampleA] [] [] 0 ("n1") fs0 ("p")).2
    ∧ getSeenIds (load_state fs0 ("p"))
      ⊆ getSeenIds (load_state (mainStep parseOne isoZero [sampleA] [] [] 0 ("n1") fs0 ("p")).1 ("p")) :=
  seen_persist_spec parseOne isoZero [sampleA] [] [] 0 ("n1") fs0 ("p")

/-- C2: running `main` twice in immediate succession with the remote source
returning the same records both times: no record survives the filter and
dedupe stages of the second run, and the seen-set persisted by the second run
equals the one persisted by the first.  The hypotheses embed "immediate
succession": the completion timestamp `now1` the first run persists is a
non-empty ISO string whose instant is at least the first run's cutoff (the
cutoff is always in the past). -/
theorem rerun_idempotent (parse : String → Option Int) (iso : String → Int)
    (raw : List Record) (R A : List String) (fallback : Int)
    (now1 now2 : String) (fs : FS) (path : String)
    (hcut : cutoffOfState iso fallback (load_state fs path) ≤ iso now1)
    (hnow : now1 ≠ "") :
    (mainStep parse iso raw R A fallback now2
        (mainStep parse iso raw R A fallback now1 fs path).1 path).2 = []
    ∧ getSeenIds (load_state
        (mainStep parse iso raw R A fallback now2
          (mainStep parse iso raw R A fallback now1 fs path).1 path).1 path)
      = getSeenIds (load_state
          (mainStep parse iso raw R A fallback now1 fs path).1 path) := by
  have hload1 := load_after_mainStep parse iso raw R A fallback now1 fs path
  have hseen2 : getSeenIds (load_state (mainStep parse iso raw R A fallback now1 fs path).1 path)
      = (runPipeline parse raw (cutoffOfState iso fallback (load_state fs path))
          R A (getSeenIds (load_state fs path))).2 := by
    rw [hload1, getSeenIds_finalState]
  have hcut2 : cutoffOfState iso fallback
      (load_state (mainStep parse iso raw R A fallback now1 fs path).1 path) = iso now1 := by
    rw [hload1]
    exact cutoffOfState_finalState iso fallback _ _ now1 hnow
  have hsnd : (mainStep parse iso raw R A fallback now2
        (mainStep parse iso raw R A fallback now1 fs path).1 path).2
      = (runPipeline parse raw
          (cutoffOfState iso fallback
            (load_state (mainStep parse iso raw R A fallback now1 fs path).1 path))
          R A
          (getSeenIds (load_state (mainStep parse iso raw R A fallback now1 fs path).1 path))).1 :=
    rfl
  have hempty : (mainStep parse iso raw R A fallback now2
      (mainStep parse iso raw R A fallback now1 fs path).1 path).2 = [] := by
    rw [hsnd, hcut2, hseen2]
    exact runPipeline_rerun parse raw R A _ _ _ hcut
  refine ⟨hempty, ?_⟩
  have hload2 := load_after_mainStep parse iso raw R A fallback now2
    (mainStep parse iso raw R A fallback now1 fs path).1 path
  rw [hload2, getSeenIds_finalState, runPipeline_snd]
  have : recordIds (runPipeline parse raw
      (cutoffOfState iso fallback
        (load_state (mainStep parse iso raw R A fallback now1 fs path).1 path))
      R A
      (getSeenIds (load_state (mainStep parse iso raw R A fallback now1 fs path).1 path))).1
      = ∅ := by
    rw [← hsnd, hempty]
    rfl
  rw [this, Finset.union_empty]

theorem rerun_idempotent_witness :
    (mainStep parseOne isoZero [sampleA] [] [] 0 ("n2")
        (mainStep parseOne isoZero [sampleA] [] [] 0 ("n1") fs0 ("p")).1 ("p")).2 = []
    ∧ getSeenIds (load_state
        (mainStep parseOne isoZero [sampleA] [] [] 0 ("n2")
          (mainStep parseOne isoZero [sampleA] [] [] 0 ("n1") fs0 ("p")).1 ("p")).1 ("p"))
      = getSeenIds (load_state
          (mainStep parseOne isoZero [sampleA] [] [] 0 ("n1") fs0 ("p")).1 ("p")) :=
  rerun_idempotent parseOne isoZero [sampleA] [] [] 0 ("n1") ("n2") fs0 ("p")
    (by decide) (by decide)

/-!
Retrying fetcher.  `http_get` (lines 66-100) issues up to `max_retries`
attempts; the outcome of each attempt is embedded as an `HttpResponse`
(success body, HTTP error with status code and parsed `Retry-After` value —
`0` when the header is absent or unparseable, exactly as
`int(e.headers.get("Retry-After", "0") or 0)` with the enclosing `try` —
or a network error/timeout).  `random.uniform(0, 1)` is embedded as an
explicit jitter sequence `jitter : Nat → ℚ` with, where a claim needs it,
the hypothesis `0 ≤ jitter a ≤ 1`.  The outcome records the returned or
raised result, the number of attempts issued and the sleep durations. -/

/-- The observable outcome of one `resp` attempt. -/
inductive HttpResponse where
  | success : String → HttpResponse
  | httpError : Nat → Nat → HttpResponse
  | netError : HttpResponse

/-- `max_retries = 5` (line 69). -/
def max_retries : Nat := 5

/-- `base_backoff = 3` seconds (line 70). -/
def base_backoff : ℚ := 3

/-- The empty Atom feed returned after exhausting retries (line 100); it
parses to zero entries. -/
def emptyFeed : String :=
  "<feed xmlns='http://www.w3.org/2005/Atom'></feed>"

/-- The retriable status codes (line 80). -/
def retriableCodes : List Nat := [429, 500, 502, 503, 504]

/-- What `http_get` does: the value returned or the status code raised, the
number of attempts issued, and the sleeps performed in order. -/
structure FetchOutcome where
  result : Except Nat String
  attempts : Nat
  sleeps : List ℚ

/-- The retry loop of `http_get` (lines 72-100) from a given attempt index,
with `fuel` attempts remaining (`http_get` starts it with
`fuel = max_retries`, `attempt = 0`).  A retriable HTTP error sleeps
`max(retry_after, base_backoff * 2 ** attempt + uniform(0, 1))` (line 86); a
network error/timeout sleeps `base_backoff * 2 ** attempt + uniform(0, 1)`
(line 94); a non-retriable HTTP error re-raises; falling out of the loop
returns the empty feed (line 100). -/
def http_get_go (jitter : Nat → ℚ) (resp : Nat → HttpResponse) :
    Nat → Nat → FetchOutcome
  | 0, _ => ⟨Except.ok emptyFeed, 0, []⟩
  | fuel + 1, attempt =>
    match resp attempt with
    | HttpResponse.success body => ⟨Except.ok body, 1, []⟩
    | HttpResponse.httpError code ra =>
      if code ∈ retriableCodes then
        let s := max (ra : ℚ) (base_backoff * 2 ^ attempt + jitter attempt)
        let rest := http_get_go jitter resp fuel (attempt + 1)
        ⟨rest.result, rest.attempts + 1, s :: rest.sleeps⟩
      else ⟨Except.error code, 1, []⟩
    | HttpResponse.netError =>
      let s := base_backoff * 2 ^ attempt + jitter attempt
      let rest := http_get_go jitter resp fuel (attempt + 1)
      ⟨rest.result, rest.attempts + 1, s :: rest.sleeps⟩

/-- `http_get` (lines 66-100): run the retry loop from attempt 0. -/
def http_get (jitter : Nat → ℚ) (resp : Nat → HttpResponse) : FetchOutcome :=
  http_get_go jitter resp max_retries 0

/-- A response that is retried and carries no server-specified delay:
a network error/timeout, or an HTTP error with retriable code and no
(parseable) `Retry-After` header. -/
def retriableNoOverride (r : HttpResponse) : Prop :=
  r = HttpResponse.netError
  ∨ ∃ c, c ∈ retriableCodes ∧ r = HttpResponse.httpError c 0

section FetchLemmas

theorem http_get_go_retriable (jitter : Nat → ℚ) (resp : Nat → HttpResponse)
    (hj : ∀ a, 0 ≤ jitter a) :
    ∀ fuel attempt, (∀ a, a < fuel → retriableNoOverride (resp (attempt + a))) →
      http_get_go jitter resp fuel attempt =
        ⟨Except.ok emptyFeed, fuel,
          (List.range' attempt fuel).map
            (fun n => base_backoff * 2 ^ n + jitter n)⟩ := by
  intro fuel
  induction fuel with
  | zero => intro attempt h; rfl
  | succ f ih =>
    intro attempt h
    have hshift : ∀ a, a < f → retriableNoOverride (resp (attempt + 1 + a)) := by
      intro a ha
      have := h (a + 1) (by omega)
      rwa [show attempt + (a + 1) = attempt + 1 + a by omega] at this
    have hrest := ih (attempt + 1) hshift
    have hmax : max ((0 : Nat) : ℚ) (base_backoff * 2 ^ attempt + jitter attempt)
        = base_backoff * 2 ^ attempt + jitter attempt := by
      rw [Nat.cast_zero]
      refine max_eq_right ?_
      have hpow : (0 : ℚ) ≤ base_backoff * 2 ^ attempt := by
        rw [show base_backoff = 3 from rfl]
        positivity
      linarith [hj attempt]
    have h0 := h 0 (Nat.succ_pos f)
    rw [Nat.add_zero] at h0
    rcases h0 with hnet | ⟨c, hc, heq⟩
    · show http_get_go jitter resp (f + 1) attempt = _
      simp only [http_get_go, hnet, hrest, List.range'_succ, List.map_cons]
    · show http_get_go jitter resp (f + 1) attempt = _
      simp only [http_get_go, heq, if_pos hc, hrest, hmax, List.range'_succ, List.map_cons]

end FetchLemmas

/-- C6: on a sequence of consecutive retriable failures with no
server-specified delay, `http_get` issues exactly `max_retries = 5` attempts
and then, instead of raising, returns the empty feed (which decodes to zero
records, so the run completes); with each jitter draw in `[0, 1]` (the range
of `random.uniform(0, 1)`), the per-attempt sleep times are monotonically
non-decreasing. -/
theorem fetch_exhaustion (jitter : Nat → ℚ) (resp : Nat → HttpResponse)
    (hresp : ∀ a, a < max_retries → retriableNoOverride (resp a))
    (hj : ∀ a, 0 ≤ jitter a ∧ jitter a ≤ 1) :
    (http_get jitter resp).attempts = max_retries
    ∧ (http_get jitter resp).result = Except.ok emptyFeed
    ∧ (http_get jitter resp).sleeps.Chain' (· ≤ ·) := by
  have hgo := http_get_go_retriable jitter resp (fun a => (hj a).1) max_retries 0
    (fun a ha => by simpa using hresp a ha)
  rw [show http_get jitter resp = _ from hgo]
  refine ⟨rfl, rfl, ?_⟩
  have hstep : ∀ k : Nat, base_backoff * 2 ^ k + jitter k
      ≤ base_backoff * 2 ^ (k + 1) + jitter (k + 1) := by
    intro k
    have h1 : (1 : ℚ) ≤ 2 ^ k := one_le_pow₀ (by norm_num)
    have h2 : base_backoff * 2 ^ (k + 1) = base_backoff * 2 ^ k * 2 := by ring
    have hbase : (base_backoff : ℚ) = 3 := rfl
    nlinarith [(hj k).2, (hj (k + 1)).1]
  show (((List.range' 0 max_retries).map
    (fun n => base_backoff * 2 ^ n + jitter n)).Chain' (· ≤ ·))
  rw [show List.range' 0 max_retries = [0, 1, 2, 3, 4] from rfl]
  simp only [List.map_cons, List.map_nil, List.chain'_cons, List.chain'_singleton, and_true]
  exact ⟨hstep 0, hstep 1, hstep 2, hstep 3⟩

/-- A response sequence that always fails with HTTP 503 and no `Retry-After`
header. -/
def resp503 : Nat → HttpResponse := fun _ => HttpResponse.httpError 503 0

/-- The zero jitter sequence. -/
def jitter0 : Nat → ℚ := fun _ => 0

theorem fetch_exhaustion_witness :
    (http_get jitter0 resp503).attempts = max_retries
    ∧ (http_get jitter0 resp503).result = Except.ok emptyFeed
    ∧ (http_get jitter0 resp503).sleeps.Chain' (· ≤ ·) :=
  fetch_exhaustion jitter0 resp503
    (fun a _ => Or.inr ⟨503, by decide, rfl⟩)
    (fun a => ⟨le_refl 0, by norm_num [jitter0]⟩)

/-- A response sequence whose first attempt fails with HTTP 429 and a
server-specified `Retry-After: 1`, after which the request succeeds. -/
def respRetryAfter : Nat → HttpResponse
  | 0 => HttpResponse.httpError 429 1
  | _ + 1 => HttpResponse.success ("ok")

/-- The constant jitter sequence 1/2, inside `uniform(0, 1)`'s range. -/
def jitterHalf : Nat → ℚ := fun _ => 1/2

/-- C7 counterexample: with a server-provided retry delay of 1 second on a
429 response at attempt 0 and a jitter draw of 1/2, `http_get` sleeps
`max(1, 3 * 2^0 + 1/2) = 7/2` seconds, not the server-provided 1 second: the
computed backoff is not bypassed when a server delay is present. -/
theorem retry_after_not_exact :
    (http_get jitterHalf respRetryAfter).sleeps = [(7 : ℚ)/2]
    ∧ (http_get jitterHalf respRetryAfter).sleeps ≠ [(1 : ℚ)] := by
  have hmax : max ((1 : Nat) : ℚ) (base_backoff * 2 ^ 0 + jitterHalf 0) = (7 : ℚ)/2 := by
    rw [max_eq_right] <;> norm_num [base_backoff, jitterHalf]
  have hs : (http_get jitterHalf respRetryAfter).sleeps = [(7 : ℚ)/2] := by
    show (http_get_go jitterHalf respRetryAfter 5 0).sleeps = [(7 : ℚ)/2]
    simp only [http_get_go, respRetryAfter, hmax,
      if_pos (show (429 : Nat) ∈ retriableCodes by decide)]
  refine ⟨hs, ?_⟩
  rw [hs]
  intro h
  have h2 : (7 : ℚ)/2 = 1 := List.head_eq_of_cons_eq h
  norm_num at h2

/-- C7 as amended: on a retriable HTTP failure, `http_get` sleeps the
maximum of the server-provided retry delay and the computed exponential
backoff plus jitter — the server delay is honored as a lower bound (and, it
being 0 when absent, the sleep is then exactly the computed backoff plus
jitter), but it is not waited exactly when it is below the computed
backoff. -/
theorem retry_after_amended (jitter : Nat → ℚ) (resp : Nat → HttpResponse)
    (fuel attempt code ra : Nat)
    (hr : resp attempt = HttpResponse.httpError code ra)
    (hc : code ∈ retriableCodes) :
    (http_get_go jitter resp (fuel + 1) attempt).sleeps.head? =
      some (max (ra : ℚ) (base_backoff * 2 ^ attempt + jitter attempt)) := by
  simp only [http_get_go, hr, if_pos hc, List.head?_cons]

theorem retry_after_amended_witness :
    (http_get_go jitter0 (fun _ => HttpResponse.httpError 429 7) 5 0).sleeps.head? =
      some (max ((7 : Nat) : ℚ) (base_backoff * 2 ^ 0 + jitter0 0)) :=
  retry_after_amended jitter0 (fun _ => HttpResponse.httpError 429 7) 4 0 429 7 rfl
    (by decide)

/-!
Digest formatter.  `digest` (lines 166-228) renders the header with
`datetime.now()` — embedded as the explicit argument `now`, since the clock
read is an input of the computation — then the context lines, then either an
explicit no-match line or one numbered block per entry up to `max_items`,
then an overflow line.  `textwrap.shorten(s, width=600, placeholder=" …")`
is embedded as the explicit argument `shorten`; the `cutoff` argument is the
already-rendered `isoformat` string of the cutoff instant, `none` standing
for Python `None`.  The `lines` list the source accumulates is `digestLines`;
`digest` joins it with newlines (stripping outer whitespace in the non-empty
case, as the source does). -/

/-- The `counts` dictionary built by `main` (lines 275-281). -/
structure Counts where
  fetched : Nat
  after_time : Nat
  after_kw : Nat
  after_dedupe : Nat
  seen : Nat

/-- The `delivery` dictionary built by `main` (line 300). -/
structure Delivery where
  email : String
  slack : String

/-- `query or '(none)'` (line 183): Python falsiness makes `None` and the
empty string both render `(none)`. -/
def optText : Option String → String
  | some s => if s = "" then ("(none)") else s
  | none => "(none)"

/-- `', '.join(xs) if xs else '(none)'` (lines 184-186). -/
def optList : Option (List String) → String
  | some xs => if xs.isEmpty then ("(none)") else String.intercalate (", ") xs
  | none => "(none)"

/-- `cutoff.isoformat(timespec='seconds') if cutoff else '(none)'`
(line 187); a `datetime` is never falsy. -/
def optInstant : Option String → String
  | some s => s
  | none => "(none)"

/-- The diagnostics line (lines 190-200). -/
def countsLine : Option Counts → String
  | some c =>
    "Counts → fetched:" ++ toString c.fetched
      ++ " | after_time:" ++ toString c.after_time
      ++ " | after_keywords:" ++ toString c.after_kw
      ++ " | after_dedupe:" ++ toString c.after_dedupe
      ++ " | seen_ids:" ++ toString c.seen
  | none => "Counts → fetched:0 | after_time:0 | after_keywords:0 | after_dedupe:0 | seen_ids:0"

/-- The delivery-status line (lines 203-208). -/
def deliveryLine : Option Delivery → String
  | some d => "Delivery → email:" ++ d.email ++ " | slack:" ++ d.slack
  | none => "Delivery → email:skipped | slack:skipped"

/-- The header, context, diagnostics and delivery lines (lines 179-210),
ending with the blank line before the entries. -/
def contextLines (now : String) (query : Option String)
    (cats required_all any_keywords : Option (List String))
    (cutoff : Option String) (counts : Option Counts)
    (delivery : Option Delivery) : List String :=
  ["arXiv topic digest — " ++ now, "",
   "Query: " ++ optText query,
   "Categories: " ++ optList cats,
   "Required ALL: " ++ optList required_all,
   "ANY keywords: " ++ optList any_keywords,
   "Cutoff (UTC): " ++ optInstant cutoff,
   countsLine counts,
   deliveryLine delivery,
   ""]

/-- The lines appended for the `i`-th rendered entry (lines 217-224):
numbered title line with the first 10 characters of the published timestamp,
optional authors line, link line falling back to the id, optional truncated
abstract, trailing blank line. -/
def entryBlock (include_abs : Bool) (shorten : String → String)
    (i : Nat) (e : Record) : List String :=
  [toString i ++ ". " ++ e.title ++ " (" ++ e.published.take 10 ++ ")"]
  ++ (if e.authors = "" then [] else ["   " ++ e.authors])
  ++ ["   " ++ (if e.link = "" then e.id else e.link)]
  ++ (if include_abs && !(e.summary == "") then ["   Abstract: " ++ shorten e.summary]
      else [])
  ++ [""]

/-- The per-entry blocks rendered by the loop
`for i, e in enumerate(entries[:max_items], 1)` (line 217). -/
def digestBlocks (include_abs : Bool) (shorten : String → String)
    (max_items : Nat) (entries : List Record) : List (List String) :=
  (entries.take max_items).enum.map
    (fun p => entryBlock include_abs shorten (p.1 + 1) p.2)

/-- The full `lines` list accumulated by `digest`: context, then either the
explicit no-match line (line 214) or the entry blocks followed — when
entries were dropped — by the overflow line `(+{n} more)` (lines 226-227). -/
def digestLines (now : String) (shorten : String → String)
    (entries : List Record) (include_abs : Bool) (max_items : Nat)
    (query : Option String) (cats required_all any_keywords : Option (List String))
    (cutoff : Option String) (counts : Option Counts)
    (delivery : Option Delivery) : List String :=
  contextLines now query cats required_all any_keywords cutoff counts delivery
  ++ (if entries.isEmpty then ["No new matching entries."]
      else (digestBlocks include_abs shorten max_items entries).flatten
        ++ (if max_items < entries.length
            then ["(+" ++ toString (entries.length - max_items) ++ " more)"]
            else []))

/-- `digest(entries, ...)` (lines 166-228): join the lines with newlines; the
empty case returns the join as-is (line 215), the non-empty case strips
outer whitespace (line 228). -/
def digest (now : String) (shorten : String → String)
    (entries : List Record) (include_abs : Bool) (max_items : Nat)
    (query : Option String) (cats required_all any_keywords : Option (List String))
    (cutoff : Option String) (counts : Option Counts)
    (delivery : Option Delivery) : String :=
  let txt := String.intercalate ("\n")
    (digestLines now shorten entries include_abs max_items query cats
      required_all any_keywords cutoff counts delivery)
  if entries.isEmpty then txt else txt.trim

/-- C9 counterexample: `digest` reads the wall clock (`datetime.now()`,
line 179) into its header, so two calls with identical record lists and
identical context arguments made at different clock times produce different
output text — the formatter is not deterministic in its inputs alone. -/
theorem digest_clock_dependent :
    digest ("2025-01-01 00:00") (fun s => s) [] true 50
        none none none none none none none
      ≠ digest ("2025-01-02 00:00") (fun s => s) [] true 50
        none none none none none none none := by
  decide

/-- C9 as amended: `digest` is deterministic given its inputs together with
the clock reading, and the clock reading affects only the header line: the
first accumulated line is the timestamp header, and all remaining lines are
identical across calls with identical records and context at different clock
times. -/
theorem digest_clock_isolated (now1 now2 : String) (shorten : String → String)
    (entries : List Record) (include_abs : Bool) (max_items : Nat)
    (query : Option String) (cats required_all any_keywords : Option (List String))
    (cutoff : Option String) (counts : Option Counts) (delivery : Option Delivery) :
    (digestLines now1 shorten entries include_abs max_items query cats
        required_all any_keywords cutoff counts delivery).tail
      = (digestLines now2 shorten entries include_abs max_items query cats
        required_all any_keywords cutoff counts delivery).tail
    ∧ (digestLines now1 shorten entries include_abs max_items query cats
        required_all any_keywords cutoff counts delivery).head?
      = some ("arXiv topic digest — " ++ now1) :=
  ⟨rfl, rfl⟩

/-- C10: for a non-empty record list and positive `max_items`, the digest
renders at most `max_items` numbered entry blocks (exactly
`min (entries.length) max_items` of them), and whenever more entries than
`max_items` were supplied its final line is the overflow line reporting
exactly `entries.length - max_items` omitted items. -/
theorem digest_truncation_spec (now : String) (shorten : String → String)
    (entries : List Record) (include_abs : Bool) (max_items : Nat)
    (query : Option String) (cats required_all any_keywords : Option (List String))
    (cutoff : Option String) (counts : Option Counts) (delivery : Option Delivery)
    (h : entries ≠ []) (hm : 0 < max_items) :
    (digestBlocks include_abs shorten max_items entries).length
        = min max_items entries.length
    ∧ (digestBlocks include_abs shorten max_items entries).length ≤ max_items
    ∧ (max_items < entries.length →
        (digestLines now shorten entries include_abs max_items query cats
            required_all any_keywords cutoff counts delivery).getLast?
          = some ("(+" ++ toString (entries.length - max_items) ++ " more)")) := by
  have hlen : (digestBlocks include_abs shorten max_items entries).length
      = min max_items entries.length := by
    simp [digestBlocks]
  refine ⟨hlen, hlen ▸ min_le_left _ _, fun hover => ?_⟩
  have hne : entries.isEmpty = false := by
    cases entries with
    | nil => exact absurd rfl h
    | cons a t => rfl
  unfold digestLines
  rw [hne]
  simp only [Bool.false_eq_true, if_false, if_pos hover]
  rw [← List.append_assoc]
  exact List.getLast?_concat _

theorem digest_truncation_spec_witness :
    (digestBlocks true (fun s => s) 1 [sampleA, sampleB]).length
        = min 1 ([sampleA, sampleB] : List Record).length
    ∧ (digestBlocks true (fun s => s) 1 [sampleA, sampleB]).length ≤ 1
    ∧ (1 < ([sampleA, sampleB] : List Record).length →
        (digestLines ("t") (fun s => s) [sampleA, sampleB] true 1
            none none none none none none none).getLast?
          = some ("(+" ++ toString (([sampleA, sampleB] : List Record).length - 1)
              ++ " more)")) :=
  digest_truncation_spec ("t") (fun s => s) [sampleA, sampleB] true 1
    none none none none none none none (by decide) (by decide)
